import Mathlib

/-
Verification of the swing-reversion grid trading strategy and its backtest
driver. The decision engine is embedded from
src/strategy-contest/swing-reversion-strategy/your_strategy.py and the driver
loop and drawdown computation from
src/strategy-contest/reports/backtest_runner.py. Real arithmetic is modelled
by the rationals; a Python division whose denominator is zero raises, which
the embedding models by returning none.
-/

namespace SwingReversion

/-- Strategy tuning parameters, read once in the constructor of
SwingReversionStrategy with the defaults of the source. -/
structure Config where
  ma_period : ℕ
  grid_step_pct : ℚ
  max_grid_levels : ℤ
  position_size_pct : ℚ
  stop_loss_pct : ℚ
  take_profit_above_sma_pct : ℚ
  trailing_stop_activation_pct : ℚ
  trailing_stop_callback_pct : ℚ
deriving Repr

/-- The default configuration values of the constructor, which are also the
values the backtest runner passes explicitly. -/
def defaultConfig : Config where
  ma_period := 24
  grid_step_pct := 0.01
  max_grid_levels := 2
  position_size_pct := 0.275
  stop_loss_pct := 0.15
  take_profit_above_sma_pct := 0.50
  trailing_stop_activation_pct := 0.025
  trailing_stop_callback_pct := 0.035

inductive Action where
  | buy
  | sell
  | hold
deriving DecidableEq, Repr

/-- Modelled from the spec: the Signal container class lives in the
base-bot-template, outside the repository sources; per the spec, size is
required for buy and sell and 0 for hold, and the reason string is optional. -/
structure Signal where
  action : Action
  size : ℚ := 0
  reason : Option String := none
deriving DecidableEq, Repr

/-- One executed buy lot in the internal ledger of the engine, appended by
on_trade as a dict with keys price and size. -/
structure Position where
  price : ℚ
  size : ℚ
deriving DecidableEq, Repr

/-- Modelled from the spec: the Portfolio class lives in the
base-bot-template, outside the repository sources; the runner reads and
writes its cash and quantity fields directly. -/
structure Portfolio where
  cash : ℚ
  quantity : ℚ
deriving DecidableEq, Repr

/-- Modelled from the spec: value(current_price) = cash + quantity * current_price. -/
def Portfolio.value (pf : Portfolio) (current_price : ℚ) : ℚ :=
  pf.cash + pf.quantity * current_price

/-- The bounded look-back window handed to generate_signal: ordered closing
prices and the current price, which the backtest exchange sets to the last
element of the window. -/
structure MarketSnapshot where
  prices : List ℚ
  current_price : ℚ
deriving DecidableEq, Repr

/-- Mutable state of the strategy object: active_positions and trailing_high,
plus last_signal_time, which the constructor sets and no method ever reads or
writes again. -/
structure StratState where
  active_positions : List Position
  trailing_high : ℚ
  last_signal_time : Option ℚ := none
deriving DecidableEq, Repr

/-- statistics.mean of a price list; on the empty list the Python call raises,
which the caller detects through the zero denominator. -/
def mean (l : List ℚ) : ℚ := l.sum / l.length

/-- The Python slice prices[-k:], which is the last k elements for k > 0 and
the whole list for k = 0. -/
def lastSlice (k : ℕ) (l : List ℚ) : List ℚ :=
  if k = 0 then l else l.drop (l.length - k)

/-- Python int() applied to a real number: truncation toward zero. -/
def pyInt (q : ℚ) : ℤ := if q < 0 then -⌊-q⌋ else ⌊q⌋

/-- The trailing-high update block of generate_signal: if quantity > 0 the
high ratchets up to the current price, otherwise it resets to 0. -/
def updateTrailingHigh (th : ℚ) (quantity current_price : ℚ) : ℚ :=
  if quantity > 0 then
    (if current_price > th then current_price else th)
  else 0

/-- The trailing-stop block of generate_signal: with a positive total ledger
size, compute the average entry and sell the whole quantity when the trailing
stop is armed and the price has called back; otherwise fall through. -/
def trailingStopCheck (cfg : Config) (positions : List Position)
    (th current_price quantity : ℚ) : Option Signal :=
  if quantity > 0 then
    let total_size := (positions.map Position.size).sum
    if total_size > 0 then
      let avg_entry := (positions.map (fun p => p.price * p.size)).sum / total_size
      if th > avg_entry * (1 + cfg.trailing_stop_activation_pct) then
        if current_price < th * (1 - cfg.trailing_stop_callback_pct) then
          some { action := Action.sell, size := quantity,
                 reason := some "Trailing Stop Hit" }
        else none
      else none
    else none
  else none

/-- The anti-clustering loop of generate_signal: walk the ledger in order and
report a position whose entry price is within half a grid step of the current
price; a ledger entry with price 0 makes the Python division raise, returned
here as none. -/
def checkProximity (current_price step : ℚ) : List Position → Option Bool
  | [] => some false
  | p :: rest =>
    if p.price = 0 then none
    else if |p.price - current_price| / p.price < step * 0.5 then some true
    else checkProximity current_price step rest

/-- The grid-entry section of generate_signal, reached when no exit fired and
deviation < 0. -/
def gridEntry (cfg : Config) (st1 : StratState) (current_price deviation : ℚ)
    (pf : Portfolio) : Option (Signal × StratState) :=
  if cfg.grid_step_pct = 0 then none
  else
    let level0 := pyInt (|deviation| / cfg.grid_step_pct)
    if level0 < 1 then some ({ action := Action.hold }, st1)
    else
      let level_idx := if level0 > cfg.max_grid_levels then cfg.max_grid_levels else level0
      match checkProximity current_price cfg.grid_step_pct st1.active_positions with
      | none => none
      | some true =>
        some ({ action := Action.hold,
                reason := some "Position already exists at this level" }, st1)
      | some false =>
        let total_equity := pf.cash + pf.quantity * current_price
        if total_equity = 0 then none
        else
          let current_exposure := pf.quantity * current_price / total_equity
          if current_exposure ≥ 0.55 then
            some ({ action := Action.hold, reason := some "Max exposure reached" }, st1)
          else
            let buy0 := total_equity * cfg.position_size_pct
            let buy_amount_usd := if pf.cash < buy0 then pf.cash else buy0
            if buy_amount_usd < 10 then
              some ({ action := Action.hold, reason := some "Insufficient cash" }, st1)
            else if current_price = 0 then none
            else
              some ({ action := Action.buy, size := buy_amount_usd / current_price,
                      reason := some ("Grid Buy Level " ++ toString level_idx) }, st1)

/-- SwingReversionStrategy.generate_signal. Returns the emitted signal
together with the post-call strategy state, or none when the Python code
raises (a division whose denominator is zero, including the StatisticsError
of mean on an empty slice, detected through sma = 0). -/
def generateSignal (cfg : Config) (st : StratState) (market : MarketSnapshot)
    (pf : Portfolio) : Option (Signal × StratState) :=
  if market.prices.length < cfg.ma_period then some ({ action := Action.hold }, st)
  else
    let current_price := market.current_price
    let sma := mean (lastSlice cfg.ma_period market.prices)
    if sma = 0 then none
    else
      let deviation := (current_price - sma) / sma
      let st1 : StratState :=
        { st with trailing_high := updateTrailingHigh st.trailing_high pf.quantity current_price }
      match trailingStopCheck cfg st1.active_positions st1.trailing_high current_price pf.quantity with
      | some sig => some (sig, st1)
      | none =>
        if deviation > cfg.take_profit_above_sma_pct ∧ pf.quantity > 0 then
          some ({ action := Action.sell, size := pf.quantity,
                  reason := some "Mean Reversion: Target Hit" }, st1)
        else if deviation < 0 then
          gridEntry cfg st1 current_price deviation pf
        else some ({ action := Action.hold }, st1)

/-- SwingReversionStrategy.on_trade: a buy fill appends a lot to the ledger,
a sell fill clears the whole ledger. -/
def on_trade (st : StratState) (sig : Signal) (execution_price execution_size : ℚ) :
    StratState :=
  if sig.action = Action.buy then
    { st with active_positions := st.active_positions ++ [⟨execution_price, execution_size⟩] }
  else if sig.action = Action.sell then
    { st with active_positions := [] }
  else st

/-- The mapping exported by get_state: keys active_positions and
trailing_high. -/
structure ExportedState where
  active_positions : List Position
  trailing_high : ℚ
deriving DecidableEq, Repr

/-- SwingReversionStrategy.get_state. -/
def get_state (st : StratState) : ExportedState :=
  ⟨st.active_positions, st.trailing_high⟩

/-- SwingReversionStrategy.set_state applied to a freshly constructed engine,
whose last_signal_time is the None of the constructor. -/
def set_state (s : ExportedState) : StratState :=
  { active_positions := s.active_positions, trailing_high := s.trailing_high,
    last_signal_time := none }

/-- Replay of a sequence of generate_signal calls, keeping only the strategy
state; none as soon as one call raises. -/
def runSignals (cfg : Config) : StratState → List (MarketSnapshot × Portfolio) →
    Option StratState
  | st, [] => some st
  | st, (m, pf) :: rest =>
    match generateSignal cfg st m pf with
    | none => none
    | some (_, st1) => runSignals cfg st1 rest

/-- One interaction with the engine: either a generate_signal call or an
on_trade notification. -/
inductive Op where
  | genSig (market : MarketSnapshot) (pf : Portfolio)
  | fill (sig : Signal) (price size : ℚ)

/-- Replay of a sequence of engine interactions, collecting the emitted
signals; none as soon as a generate_signal call raises. -/
def runOps (cfg : Config) : StratState → List Op → Option (List Signal × StratState)
  | st, [] => some ([], st)
  | st, Op.genSig m pf :: rest =>
    match generateSignal cfg st m pf with
    | none => none
    | some (sig, st1) =>
      match runOps cfg st1 rest with
      | none => none
      | some (outs, stF) => some (sig :: outs, stF)
  | st, Op.fill sig price size :: rest => runOps cfg (on_trade st sig price size) rest

/-- Record of a fill appended by the backtest runner to its trades list. -/
structure Trade where
  side : Action
  price : ℚ
  size : ℚ
deriving DecidableEq, Repr

/-- The mutable state of the run_backtest loop: the portfolio, the strategy
object, the trades list and the equity curve. -/
structure DriverState where
  pf : Portfolio
  strat : StratState
  trades : List Trade
  equity_curve : List ℚ
deriving DecidableEq, Repr

/-- The signal-application part of the loop body of run_backtest: an affordable
buy decrements cash, increments quantity, records the trade and notifies
on_trade; a covered sell does the reverse and notifies on_trade; anything else
leaves the state untouched. -/
def applySignal (ds : DriverState) (sig : Signal) (current_price : ℚ) : DriverState :=
  if sig.action = Action.buy then
    let cost := sig.size * current_price
    if ds.pf.cash ≥ cost then
      { ds with
        pf := ⟨ds.pf.cash - cost, ds.pf.quantity + sig.size⟩,
        strat := on_trade ds.strat sig current_price sig.size,
        trades := ds.trades ++ [⟨Action.buy, current_price, sig.size⟩] }
    else ds
  else if sig.action = Action.sell then
    if ds.pf.quantity ≥ sig.size then
      { ds with
        pf := ⟨ds.pf.cash + sig.size * current_price, ds.pf.quantity - sig.size⟩,
        strat := on_trade ds.strat sig current_price sig.size,
        trades := ds.trades ++ [⟨Action.sell, current_price, sig.size⟩] }
    else ds
  else ds

/-- The loop body of run_backtest after the signal is obtained: apply the
signal, then record the mark-to-market portfolio value on the equity curve
whether or not a trade occurred. -/
def recordStep (ds : DriverState) (sig : Signal) (current_price : ℚ) : DriverState :=
  let ds1 := applySignal ds sig current_price
  { ds1 with equity_curve := ds1.equity_curve ++ [ds1.pf.value current_price] }

/-- One full iteration of the run_backtest loop on one market snapshot. -/
def driverStep (cfg : Config) (ds : DriverState) (snap : MarketSnapshot) :
    Option DriverState :=
  match generateSignal cfg ds.strat snap ds.pf with
  | none => none
  | some (sig, st1) => some (recordStep { ds with strat := st1 } sig snap.current_price)

/-- The run_backtest loop over a sequence of market snapshots. -/
def driverRun (cfg : Config) : DriverState → List MarketSnapshot → Option DriverState
  | ds, [] => some ds
  | ds, snap :: rest =>
    match driverStep cfg ds snap with
    | none => none
    | some ds1 => driverRun cfg ds1 rest

/-- Total size held according to the internal ledger of the engine. -/
def sumSizes (l : List Position) : ℚ := (l.map Position.size).sum

/-- The drawdown loop of run_backtest, carrying the running peak and the
running maximum drawdown. -/
def maxDrawdownAux : ℚ → ℚ → List ℚ → ℚ
  | _, mdd, [] => mdd
  | peak, mdd, eq :: rest =>
    let peak1 := if eq > peak then eq else peak
    let dd := (peak1 - eq) / peak1
    maxDrawdownAux peak1 (if dd > mdd then dd else mdd) rest

/-- Maximum drawdown as computed by run_backtest, with the peak initialized to
the starting cash 10000 and the maximum to 0. -/
def maxDrawdown (equity_curve : List ℚ) : ℚ := maxDrawdownAux 10000 0 equity_curve

/-- Written from the spec formula: the running peak at step t is the maximum
of the starting cash and the equities up to and including t. -/
def runningPeak (eqs : List ℚ) (t : ℕ) : ℚ := List.foldl max 10000 (eqs.take (t + 1))

/-- Written from the spec formula: the drawdown at step t. -/
def ddSpec (eqs : List ℚ) (t : ℕ) : ℚ :=
  (runningPeak eqs t - eqs.getD t 0) / runningPeak eqs t

/-- Written from the spec formula: the maximum over t of the drawdown at t. -/
def maxDrawdownSpec (eqs : List ℚ) : ℚ :=
  List.foldl max 0 ((List.range eqs.length).map (ddSpec eqs))

/-- The list of per-step drawdowns produced while folding the drawdown loop. -/
def ddList : ℚ → List ℚ → List ℚ
  | _, [] => []
  | peak, eq :: rest =>
    let peak1 := if eq > peak then eq else peak
    ((peak1 - eq) / peak1) :: ddList peak1 rest

/-- Concrete 24-price window with last-24 mean 100 and last price 97, used by
witness instantiations. -/
def buyWindow : List ℚ := List.replicate 22 100 ++ [103, 97]

/-- Concrete 24-price window with last-24 mean 102.5 and last price 160, a
deviation above the take-profit threshold. -/
def sellWindow : List ℚ := List.replicate 23 100 ++ [160]

/-- Concrete 24-price window of constant price 100. -/
def flatWindow : List ℚ := List.replicate 24 100

lemma gridEntry_state {cfg : Config} {st1 : StratState} {p dev : ℚ} {pf : Portfolio}
    {sig : Signal} {st2 : StratState}
    (h : gridEntry cfg st1 p dev pf = some (sig, st2)) : st2 = st1 := by
  simp only [gridEntry] at h
  repeat' split at h
  all_goals simp_all

lemma gridEntry_not_sell {cfg : Config} {st1 : StratState} {p dev : ℚ} {pf : Portfolio}
    {sig : Signal} {st2 : StratState}
    (h : gridEntry cfg st1 p dev pf = some (sig, st2)) : sig.action ≠ Action.sell := by
  simp only [gridEntry] at h
  repeat' split at h
  all_goals simp_all
  all_goals (obtain ⟨rfl, rfl⟩ := h; simp)

lemma gridEntry_buy_exposure {cfg : Config} {st1 : StratState} {p dev : ℚ} {pf : Portfolio}
    {sig : Signal} {st2 : StratState}
    (h : gridEntry cfg st1 p dev pf = some (sig, st2)) (hb : sig.action = Action.buy) :
    pf.quantity * p / (pf.cash + pf.quantity * p) < 0.55 := by
  simp only [gridEntry] at h
  repeat' split at h
  all_goals simp_all
  all_goals (obtain ⟨rfl, rfl⟩ := h; simp_all)

lemma trailingStopCheck_sell {cfg : Config} {positions : List Position}
    {th p q : ℚ} {sig : Signal}
    (h : trailingStopCheck cfg positions th p q = some sig) :
    sig.action = Action.sell ∧ sig.size = q := by
  simp only [trailingStopCheck] at h
  repeat' split at h
  all_goals simp_all
  all_goals (obtain rfl := h.symm; simp)

lemma generateSignal_short {cfg : Config} {st : StratState} {m : MarketSnapshot}
    {pf : Portfolio} (h : m.prices.length < cfg.ma_period) :
    generateSignal cfg st m pf = some ({ action := Action.hold }, st) := by
  simp [generateSignal, h]

lemma generateSignal_state {cfg : Config} {st : StratState} {m : MarketSnapshot}
    {pf : Portfolio} {sig : Signal} {st2 : StratState}
    (h : generateSignal cfg st m pf = some (sig, st2))
    (hl : ¬ m.prices.length < cfg.ma_period) :
    st2 = { st with trailing_high :=
      updateTrailingHigh st.trailing_high pf.quantity m.current_price } := by
  simp only [generateSignal] at h
  repeat' split at h
  all_goals simp_all
  all_goals try exact (gridEntry_state h).symm ▸ rfl

lemma generateSignal_sell_size {cfg : Config} {st : StratState} {m : MarketSnapshot}
    {pf : Portfolio} {sig : Signal} {st2 : StratState}
    (h : generateSignal cfg st m pf = some (sig, st2))
    (hs : sig.action = Action.sell) : sig.size = pf.quantity := by
  simp only [generateSignal] at h
  repeat' split at h
  all_goals simp_all
  all_goals try (obtain ⟨rfl, rfl⟩ := h)
  all_goals try simp_all
  all_goals first
    | exact (trailingStopCheck_sell (by assumption)).2
    | exact absurd hs (gridEntry_not_sell h)

lemma generateSignal_buy_exposure {cfg : Config} {st : StratState} {m : MarketSnapshot}
    {pf : Portfolio} {sig : Signal} {st2 : StratState}
    (h : generateSignal cfg st m pf = some (sig, st2))
    (hb : sig.action = Action.buy) :
    pf.quantity * m.current_price / (pf.cash + pf.quantity * m.current_price) < 0.55 := by
  simp only [generateSignal] at h
  repeat' split at h
  all_goals simp_all
  all_goals try (obtain ⟨rfl, rfl⟩ := h)
  all_goals try simp_all
  all_goals first
    | (have hact := (trailingStopCheck_sell (by assumption)).1; simp_all)
    | exact gridEntry_buy_exposure h hb

lemma generateSignal_trailing_mono {cfg : Config} {st : StratState} {m : MarketSnapshot}
    {pf : Portfolio} {sig : Signal} {st2 : StratState}
    (h : generateSignal cfg st m pf = some (sig, st2)) (hq : 0 < pf.quantity) :
    st.trailing_high ≤ st2.trailing_high := by
  by_cases hl : m.prices.length < cfg.ma_period
  · rw [generateSignal_short hl] at h
    simp only [Option.some.injEq, Prod.mk.injEq] at h
    rw [← h.2]
  · rw [generateSignal_state h hl]
    simp only [updateTrailingHigh, if_pos hq]
    split
    · exact le_of_lt (by assumption)
    · exact le_rfl

lemma runSignals_trailing_mono (cfg : Config) :
    ∀ (inputs : List (MarketSnapshot × Portfolio)) (st st2 : StratState),
    (∀ i ∈ inputs, 0 < (Prod.snd i).quantity) →
    runSignals cfg st inputs = some st2 → st.trailing_high ≤ st2.trailing_high := by
  intro inputs
  induction inputs with
  | nil =>
    intro st st2 _ h
    simp only [runSignals, Option.some.injEq] at h
    rw [h]
  | cons i rest ih =>
    intro st st2 hq h
    obtain ⟨m, pf⟩ := i
    simp only [runSignals] at h
    cases hgen : generateSignal cfg st m pf with
    | none => rw [hgen] at h; exact absurd h (by simp)
    | some p =>
      obtain ⟨sig, st1⟩ := p
      rw [hgen] at h
      have h1 := generateSignal_trailing_mono hgen (hq (m, pf) (by simp))
      have h2 := ih st1 st2 (fun j hj => hq j (by simp [hj])) h
      exact le_trans h1 h2

lemma generateSignal_positions {cfg : Config} {st : StratState} {m : MarketSnapshot}
    {pf : Portfolio} {sig : Signal} {st2 : StratState}
    (h : generateSignal cfg st m pf = some (sig, st2)) :
    st2.active_positions = st.active_positions := by
  by_cases hl : m.prices.length < cfg.ma_period
  · rw [generateSignal_short hl] at h
    simp only [Option.some.injEq, Prod.mk.injEq] at h
    rw [← h.2]
  · rw [generateSignal_state h hl]

lemma sumSizes_append (l : List Position) (x : Position) :
    sumSizes (l ++ [x]) = sumSizes l + x.size := by
  simp [sumSizes]

lemma driverStep_inv {cfg : Config} {ds : DriverState} {snap : MarketSnapshot}
    {ds2 : DriverState} (h : driverStep cfg ds snap = some ds2)
    (hinv : ds.pf.quantity = sumSizes ds.strat.active_positions) :
    ds2.pf.quantity = sumSizes ds2.strat.active_positions := by
  simp only [driverStep] at h
  cases hgen : generateSignal cfg ds.strat snap ds.pf with
  | none => rw [hgen] at h; exact absurd h (by simp)
  | some p =>
    obtain ⟨sig, st1⟩ := p
    rw [hgen] at h
    simp only [Option.some.injEq] at h
    subst h
    have hpos := generateSignal_positions hgen
    rcases ha : sig.action with _ | _ | _
    · by_cases hc : ds.pf.cash ≥ sig.size * snap.current_price
      · simp [recordStep, applySignal, ha, hc, on_trade, sumSizes_append, hpos, hinv]
      · simp [recordStep, applySignal, ha, hc, hpos, hinv]
    · have hsz := generateSignal_sell_size hgen ha
      by_cases hc : ds.pf.quantity ≥ sig.size
      · simp [recordStep, applySignal, ha, hc, on_trade, sumSizes, hsz]
      · exact absurd hsz.le hc
    · simp [recordStep, applySignal, ha, hpos, hinv]

lemma driverRun_inv (cfg : Config) :
    ∀ (snaps : List MarketSnapshot) (ds ds2 : DriverState),
    driverRun cfg ds snaps = some ds2 →
    ds.pf.quantity = sumSizes ds.strat.active_positions →
    ds2.pf.quantity = sumSizes ds2.strat.active_positions := by
  intro snaps
  induction snaps with
  | nil =>
    intro ds ds2 h hinv
    simp only [driverRun, Option.some.injEq] at h
    rw [← h]; exact hinv
  | cons snap rest ih =>
    intro ds ds2 h hinv
    simp only [driverRun] at h
    cases hstep : driverStep cfg ds snap with
    | none => rw [hstep] at h; exact absurd h (by simp)
    | some ds1 =>
      rw [hstep] at h
      exact ih ds1 ds2 h (driverStep_inv hstep hinv)

lemma on_trade_lst (st : StratState) (v : Option ℚ) (sig : Signal) (pr sz : ℚ) :
    on_trade { st with last_signal_time := v } sig pr sz =
      { on_trade st sig pr sz with last_signal_time := v } := by
  simp only [on_trade]
  repeat' split
  all_goals rfl

lemma gridEntry_lst (cfg : Config) (ap : List Position) (th : ℚ) (lst v : Option ℚ)
    (p dev : ℚ) (pf : Portfolio) :
    gridEntry cfg ⟨ap, th, v⟩ p dev pf =
      (gridEntry cfg ⟨ap, th, lst⟩ p dev pf).map
        (fun r => (r.1, { r.2 with last_signal_time := v })) := by
  simp only [gridEntry]
  repeat' split
  all_goals simp_all

lemma generateSignal_lst (cfg : Config) (st : StratState) (m : MarketSnapshot)
    (pf : Portfolio) (v : Option ℚ) :
    generateSignal cfg { st with last_signal_time := v } m pf =
      (generateSignal cfg st m pf).map
        (fun r => (r.1, { r.2 with last_signal_time := v })) := by
  obtain ⟨ap, th, lst⟩ := st
  simp only [generateSignal]
  repeat' split
  all_goals try rfl
  all_goals try simp_all
  all_goals try exact gridEntry_lst cfg ap _ lst v _ _ pf

lemma runOps_lst (cfg : Config) :
    ∀ (ops : List Op) (st : StratState) (v : Option ℚ),
    (runOps cfg { st with last_signal_time := v } ops).map Prod.fst =
      (runOps cfg st ops).map Prod.fst := by
  intro ops
  induction ops with
  | nil => intro st v; rfl
  | cons op rest ih =>
    intro st v
    cases op with
    | genSig m pf =>
      simp only [runOps, generateSignal_lst]
      cases hgen : generateSignal cfg st m pf with
      | none => rfl
      | some p =>
        obtain ⟨sig, st1⟩ := p
        simp only [Option.map_some']
        have h1 := ih st1 v
        cases h2 : runOps cfg st1 rest with
        | none =>
          rw [h2] at h1
          cases h3 : runOps cfg { st1 with last_signal_time := v } rest with
          | none => rfl
          | some q => rw [h3] at h1; simp at h1
        | some q =>
          rw [h2] at h1
          cases h3 : runOps cfg { st1 with last_signal_time := v } rest with
          | none => rw [h3] at h1; simp at h1
          | some q2 =>
            rw [h3] at h1
            simp only [Option.map_some', Option.some.injEq] at h1
            simp [h1]
    | fill sig pr sz =>
      simp only [runOps, on_trade_lst]
      exact ih (on_trade st sig pr sz) v

lemma ite_gt_max (a b : ℚ) : (if b > a then b else a) = max a b := by
  rcases le_or_lt b a with h | h
  · rw [if_neg (not_lt.mpr h), max_eq_left h]
  · rw [if_pos h, max_eq_right (le_of_lt h)]

lemma maxDrawdownAux_eq (l : List ℚ) :
    ∀ peak mdd, maxDrawdownAux peak mdd l = List.foldl max mdd (ddList peak l) := by
  induction l with
  | nil => intro peak mdd; rfl
  | cons e rest ih =>
    intro peak mdd
    simp only [maxDrawdownAux, ddList, List.foldl_cons]
    rw [ih, ite_gt_max]

lemma ddList_length (l : List ℚ) : ∀ peak, (ddList peak l).length = l.length := by
  induction l with
  | nil => intro peak; rfl
  | cons e rest ih => intro peak; simp [ddList, ih]

lemma ddList_get? (l : List ℚ) :
    ∀ (peak : ℚ) (t : ℕ), t < l.length →
    (ddList peak l).get? t =
      some ((List.foldl max peak (l.take (t + 1)) - l.getD t 0) /
        List.foldl max peak (l.take (t + 1))) := by
  induction l with
  | nil => intro peak t h; exact absurd h (by simp)
  | cons e rest ih =>
    intro peak t h
    cases t with
    | zero => simp [ddList, ite_gt_max]
    | succ t =>
      have := ih (if e > peak then e else peak) t (by simpa using h)
      simp only [ddList, List.get?_cons_succ, List.take_succ_cons, List.foldl_cons,
        List.getD_cons_succ]
      rw [this, ite_gt_max]

lemma ddList_eq_map (eqs : List ℚ) :
    ddList 10000 eqs = (List.range eqs.length).map (ddSpec eqs) := by
  apply List.ext_get?
  intro t
  by_cases ht : t < eqs.length
  · rw [ddList_get? eqs 10000 t ht, List.get?_map, List.get?_range ht]
    simp [ddSpec, runningPeak]
  · rw [List.get?_eq_none.mpr, List.get?_eq_none.mpr]
    · simpa using not_lt.mp ht
    · simpa [ddList_length] using not_lt.mp ht

/-- Claim C1: with the default configuration, cash 10000, no position, an
empty ledger and a window of at least 24 prices whose last-24 mean is 100 and
whose current price is 97, generate_signal emits a buy of size
10000 times 0.275 over 97 whose reason names grid level 2 (the raw level 3 is
clamped to max_grid_levels = 2). -/
theorem c1_grid_buy_scenario (ps : List ℚ)
    (hlen : 24 ≤ ps.length)
    (hmean : mean (lastSlice 24 ps) = 100) :
    generateSignal defaultConfig ⟨[], 0, none⟩ ⟨ps, 97⟩ ⟨10000, 0⟩ =
      some ({ action := Action.buy, size := 10000 * 0.275 / 97,
              reason := some "Grid Buy Level 2" }, ⟨[], 0, none⟩) := by
  have h1 : ¬ (ps.length < 24) := not_lt.mpr hlen
  norm_num [generateSignal, defaultConfig, hmean, h1, updateTrailingHigh,
    trailingStopCheck, gridEntry, checkProximity, pyInt, abs_div, abs_of_nonneg]
  rfl

/-- Witness for claim C1 at the concrete window buyWindow. -/
theorem c1_grid_buy_scenario_witness :
    24 ≤ buyWindow.length ∧ mean (lastSlice 24 buyWindow) = 100 ∧
    generateSignal defaultConfig ⟨[], 0, none⟩ ⟨buyWindow, 97⟩ ⟨10000, 0⟩ =
      some ({ action := Action.buy, size := 10000 * 0.275 / 97,
              reason := some "Grid Buy Level 2" }, ⟨[], 0, none⟩) :=
  ⟨by norm_num [buyWindow],
   by norm_num [buyWindow, mean, lastSlice, List.sum_replicate, List.sum_append],
   c1_grid_buy_scenario buyWindow (by norm_num [buyWindow])
     (by norm_num [buyWindow, mean, lastSlice, List.sum_replicate, List.sum_append])⟩

/-- Claim C2: whenever generate_signal returns a buy signal on a window of at
least ma_period prices, the exposure ratio quantity times price over cash plus
quantity times price is below 0.55. -/
theorem c2_exposure_cap (cfg : Config) (st : StratState) (m : MarketSnapshot)
    (pf : Portfolio) (sig : Signal) (st2 : StratState)
    (hlen : cfg.ma_period ≤ m.prices.length)
    (h : generateSignal cfg st m pf = some (sig, st2))
    (hb : sig.action = Action.buy) :
    pf.quantity * m.current_price / (pf.cash + pf.quantity * m.current_price) < 0.55 :=
  generateSignal_buy_exposure h hb

/-- Witness for claim C2 at the concrete buy scenario. -/
theorem c2_exposure_cap_witness :
    (0 : ℚ) * 97 / (10000 + 0 * 97) < 0.55 :=
  c2_exposure_cap defaultConfig ⟨[], 0, none⟩ ⟨buyWindow, 97⟩ ⟨10000, 0⟩
    { action := Action.buy, size := 10000 * 0.275 / 97, reason := some "Grid Buy Level 2" }
    ⟨[], 0, none⟩
    (by norm_num [buyWindow, defaultConfig])
    (by norm_num [generateSignal, defaultConfig, buyWindow, mean, lastSlice,
          updateTrailingHigh, trailingStopCheck, gridEntry, checkProximity, pyInt,
          List.sum_replicate, List.sum_append, abs_div, abs_of_nonneg]
        rfl)
    rfl

/-- Claim C3: across any sequence of successful generate_signal calls whose
portfolio quantity stays positive the trailing high never decreases; on a
sufficient window with quantity zero the post-call trailing high is exactly 0;
and a call on a window shorter than ma_period returns hold with the state
untouched, the length check being the only branch before the update. -/
theorem c3_trailing_high_monotone :
    (∀ (cfg : Config) (st st2 : StratState) (inputs : List (MarketSnapshot × Portfolio)),
      (∀ i ∈ inputs, 0 < (Prod.snd i).quantity) →
      runSignals cfg st inputs = some st2 →
      st.trailing_high ≤ st2.trailing_high) ∧
    (∀ (cfg : Config) (st : StratState) (m : MarketSnapshot) (pf : Portfolio)
        (sig : Signal) (st2 : StratState),
      cfg.ma_period ≤ m.prices.length → pf.quantity = 0 →
      generateSignal cfg st m pf = some (sig, st2) → st2.trailing_high = 0) ∧
    (∀ (cfg : Config) (st : StratState) (m : MarketSnapshot) (pf : Portfolio),
      m.prices.length < cfg.ma_period →
      generateSignal cfg st m pf = some ({ action := Action.hold }, st)) := by
  refine ⟨fun cfg st st2 inputs h1 h2 => runSignals_trailing_mono cfg inputs st st2 h1 h2,
    fun cfg st m pf sig st2 hlen hq h => ?_, fun cfg st m pf h => generateSignal_short h⟩
  rw [generateSignal_state h (not_lt.mpr hlen)]
  simp [updateTrailingHigh, hq]

/-- Witness for claim C3: one-call run raising the trailing high from 5 to
100, a reset to 0 with zero quantity, and an untouched state on a short
window. -/
theorem c3_trailing_high_monotone_witness :
    ((⟨[], 5, none⟩ : StratState).trailing_high ≤ (⟨[], 100, none⟩ : StratState).trailing_high) ∧
    ((⟨[], 0, none⟩ : StratState).trailing_high = 0) ∧
    (generateSignal defaultConfig ⟨[], 3, none⟩ ⟨[100], 100⟩ ⟨0, 0⟩ = some ({ action := Action.hold }, ⟨[], 3, none⟩)) :=
  ⟨c3_trailing_high_monotone.1 defaultConfig ⟨[], 5, none⟩ ⟨[], 100, none⟩
      [(⟨flatWindow, 100⟩, ⟨100, 1⟩)]
      (by rintro i hi; simp only [List.mem_singleton] at hi; subst hi; norm_num)
      (by norm_num [runSignals, generateSignal, defaultConfig, flatWindow, mean, lastSlice,
        updateTrailingHigh, trailingStopCheck, gridEntry, checkProximity, pyInt,
        List.sum_replicate]),
   c3_trailing_high_monotone.2.1 defaultConfig ⟨[], 7, none⟩ ⟨flatWindow, 100⟩ ⟨100, 0⟩
      { action := Action.hold } ⟨[], 0, none⟩
      (by norm_num [flatWindow, defaultConfig]) rfl
      (by norm_num [generateSignal, defaultConfig, flatWindow, mean, lastSlice,
        updateTrailingHigh, trailingStopCheck, gridEntry, checkProximity, pyInt,
        List.sum_replicate]),
   c3_trailing_high_monotone.2.2 defaultConfig ⟨[], 3, none⟩ ⟨[100], 100⟩ ⟨0, 0⟩
      (by norm_num [defaultConfig])⟩

/-- Claim C4: on a window of at least ma_period prices with a well-defined
anchor, a positive position and a deviation above the take-profit threshold,
generate_signal returns a sell sized as the whole position, whichever exit
branch fires. -/
theorem c4_take_profit_exit (cfg : Config) (st : StratState) (m : MarketSnapshot)
    (pf : Portfolio)
    (hlen : cfg.ma_period ≤ m.prices.length)
    (hsma : mean (lastSlice cfg.ma_period m.prices) ≠ 0)
    (hq : 0 < pf.quantity)
    (hdev : (m.current_price - mean (lastSlice cfg.ma_period m.prices)) /
        mean (lastSlice cfg.ma_period m.prices) > cfg.take_profit_above_sma_pct) :
    ∃ sig st2, generateSignal cfg st m pf = some (sig, st2) ∧
      sig.action = Action.sell ∧ sig.size = pf.quantity := by
  have h1 : ¬ (m.prices.length < cfg.ma_period) := not_lt.mpr hlen
  rcases htsc : trailingStopCheck cfg st.active_positions
      (updateTrailingHigh st.trailing_high pf.quantity m.current_price)
      m.current_price pf.quantity with _ | s
  · refine ⟨{ action := Action.sell, size := pf.quantity, reason := some "Mean Reversion: Target Hit" }, { st with trailing_high := updateTrailingHigh st.trailing_high pf.quantity m.current_price }, ?_, rfl, rfl⟩
    simp [generateSignal, h1, hsma, htsc, hdev, hq]
  · obtain ⟨hact, hsize⟩ := trailingStopCheck_sell htsc
    refine ⟨s, { st with trailing_high := updateTrailingHigh st.trailing_high pf.quantity m.current_price }, ?_, hact, hsize⟩
    simp [generateSignal, h1, hsma, htsc]

/-- Witness for claim C4 at the concrete window sellWindow with one held
unit. -/
theorem c4_take_profit_exit_witness :
    ∃ sig st2, generateSignal defaultConfig ⟨[⟨100, 1⟩], 0, none⟩ ⟨sellWindow, 160⟩ ⟨100, 1⟩ = some (sig, st2) ∧ sig.action = Action.sell ∧ sig.size = 1 :=
  c4_take_profit_exit defaultConfig ⟨[⟨100, 1⟩], 0, none⟩ ⟨sellWindow, 160⟩ ⟨100, 1⟩
    (by norm_num [sellWindow, defaultConfig])
    (by norm_num [sellWindow, defaultConfig, mean, lastSlice, List.sum_replicate, List.sum_append])
    (by norm_num)
    (by norm_num [sellWindow, defaultConfig, mean, lastSlice, List.sum_replicate, List.sum_append])

/-- Claim C5: starting from quantity 0 and an empty engine ledger, after any
successful driver run the portfolio quantity equals the sum of the sizes in
the internal ledger of the engine. -/
theorem c5_ledger_consistency (cfg : Config) (snaps : List MarketSnapshot)
    (ds0 ds2 : DriverState)
    (hq : ds0.pf.quantity = 0) (hl : ds0.strat.active_positions = [])
    (hrun : driverRun cfg ds0 snaps = some ds2) :
    ds2.pf.quantity = sumSizes ds2.strat.active_positions :=
  driverRun_inv cfg snaps ds0 ds2 hrun (by simp [hq, hl, sumSizes])

/-- Witness for claim C5: one driver step on the concrete buy scenario
executes the buy and leaves quantity equal to the single ledger size. -/
theorem c5_ledger_consistency_witness :
    (2750 / 97 : ℚ) = sumSizes [⟨97, 2750 / 97⟩] :=
  c5_ledger_consistency defaultConfig [⟨buyWindow, 97⟩]
    ⟨⟨10000, 0⟩, ⟨[], 0, none⟩, [], []⟩
    ⟨⟨7250, 2750 / 97⟩, ⟨[⟨97, 2750 / 97⟩], 0, none⟩, [⟨Action.buy, 97, 2750 / 97⟩], [10000]⟩
    rfl rfl
    (by norm_num [driverRun, driverStep, recordStep, applySignal, on_trade,
        Portfolio.value, generateSignal, defaultConfig, buyWindow, mean, lastSlice,
        updateTrailingHigh, trailingStopCheck, gridEntry, checkProximity, pyInt,
        List.sum_replicate, List.sum_append, abs_div, abs_of_nonneg])

/-- Claim C6: a buy whose cost exceeds cash, or a sell whose size exceeds the
held quantity, leaves the portfolio, the trades list and the engine state
untouched and calls no on_trade, while the equity sample is still recorded;
the application itself is a total function, so nothing is raised. -/
theorem c6_insufficient_funds_noop (ds : DriverState) (sig : Signal) (p : ℚ)
    (h : (sig.action = Action.buy ∧ ds.pf.cash < sig.size * p) ∨
         (sig.action = Action.sell ∧ ds.pf.quantity < sig.size)) :
    recordStep ds sig p =
      { ds with equity_curve := ds.equity_curve ++ [ds.pf.value p] } := by
  rcases h with ⟨ha, hc⟩ | ⟨ha, hc⟩ <;>
    simp [recordStep, applySignal, ha, not_le.mpr hc]

/-- Witness for claim C6: a sell of one unit against an empty position is a
no-op apart from the equity sample. -/
theorem c6_insufficient_funds_noop_witness :
    recordStep ⟨⟨5, 0⟩, ⟨[], 0, none⟩, [], []⟩ { action := Action.sell, size := 1 } 97 =
      { pf := ⟨5, 0⟩, strat := ⟨[], 0, none⟩, trades := [],
        equity_curve := [] ++ [(⟨5, 0⟩ : Portfolio).value 97] } :=
  c6_insufficient_funds_noop ⟨⟨5, 0⟩, ⟨[], 0, none⟩, [], []⟩
    { action := Action.sell, size := 1 } 97 (Or.inr ⟨rfl, by norm_num⟩)

/-- Claim C7: the code is not total. With cash 0 and quantity 0 on the
concrete grid-buy window, the evaluation reaches the exposure computation
whose denominator cash plus quantity times price is zero, so the Python
division raises instead of returning a hold signal as the spec requires. -/
theorem c7_zero_equity_division_fault :
    generateSignal defaultConfig ⟨[], 0, none⟩ ⟨buyWindow, 97⟩ ⟨0, 0⟩ = none := by
  norm_num [generateSignal, defaultConfig, buyWindow, mean, lastSlice,
    updateTrailingHigh, trailingStopCheck, gridEntry, checkProximity, pyInt,
    List.sum_replicate, List.sum_append, abs_div, abs_of_nonneg]

/-- Claim C8: restoring a fresh engine from set_state of get_state reproduces
the exact signal sequence of the original engine on every sequence of
generate_signal and on_trade interactions: the exported mapping carries all
decision-relevant state. -/
theorem c8_state_round_trip (cfg : Config) (st : StratState) (ops : List Op) :
    (runOps cfg (set_state (get_state st)) ops).map Prod.fst =
      (runOps cfg st ops).map Prod.fst := by
  have h : set_state (get_state st) = { st with last_signal_time := none } := rfl
  rw [h, runOps_lst]

/-- Claim C9: the drawdown loop of the runner computes the maximum over t of
the relative distance of equity below the running peak initialized to the
starting cash 10000, and on the curve 10000, 11000, 9000, 9500 it yields
2000 over 11000. -/
theorem c9_drawdown_correct :
    (∀ eqs : List ℚ, maxDrawdown eqs = maxDrawdownSpec eqs) ∧
    maxDrawdown [10000, 11000, 9000, 9500] = (11000 - 9000) / 11000 := by
  constructor
  · intro eqs
    rw [maxDrawdown, maxDrawdownAux_eq, maxDrawdownSpec, ddList_eq_map]
  · norm_num [maxDrawdown, maxDrawdownAux]

/-- Claim C10: the configured stop_loss_pct is never consumed: two engines
whose configurations differ only in that field emit identical signals and
reach identical internal state on every sequence of interactions. -/
theorem c10_stop_loss_noninterference (cfg : Config) (v : ℚ) (st : StratState)
    (ops : List Op) :
    runOps { cfg with stop_loss_pct := v } st ops = runOps cfg st ops := by
  induction ops generalizing st with
  | nil => rfl
  | cons op rest ih =>
    cases op with
    | genSig m pf =>
      have hg : generateSignal { cfg with stop_loss_pct := v } st m pf =
          generateSignal cfg st m pf := rfl
      simp only [runOps, hg]
      cases generateSignal cfg st m pf with
      | none => rfl
      | some p =>
        obtain ⟨sig, st1⟩ := p
        simp only [ih]
    | fill sig pr sz =>
      simp only [runOps]
      exact ih (on_trade st sig pr sz)

end SwingReversion
